import Mathlib

/-!
Shallow embedding of the goit-pycore address-book homework (variants hw-06 and
hw-07) and proofs about its data model, record operations and the
upcoming-birthdays engine.

Conventions of the embedding:
* Python strings are Lean `String`s (sequences of Unicode code points, as in
  CPython).
* Python `datetime.date` values are `PyDate` records; validity is checked at
  exactly the points where the CPython library checks it.
* A Python method that can raise is an `Except String` (carrying the exact
  message of the `ValueError`/`KeyError` it raises); a method that merely
  prints returns the printed text alongside its result.
* In-place mutation of a record or book is explicit state passing: the
  operation returns the updated value.
-/

deriving instance DecidableEq for Except

/-- Model of a Python `datetime.date`: year, month and day fields.
Validity (`datetime.MINYEAR = 1`, `datetime.MAXYEAR = 9999`, day in range for
the month) is enforced by the constructing operations, as in CPython. -/
structure PyDate where
  year : Nat
  month : Nat
  day : Nat
deriving DecidableEq, Repr

/-- Gregorian leap-year test, as in the CPython `datetime` module. -/
def isLeapYear (y : Nat) : Bool := y % 4 == 0 && (y % 100 != 0 || y % 400 == 0)

/-- Number of days in month `m` of year `y` (CPython `calendar`/`datetime`). -/
def daysInMonth (y m : Nat) : Nat :=
  if m == 2 then (if isLeapYear y then 29 else 28)
  else if m == 4 || m == 6 || m == 9 || m == 11 then 30
  else 31

/-- The validity test the CPython `date` constructor performs. -/
def validDate (y m d : Nat) : Bool :=
  decide (1 ≤ y ∧ y ≤ 9999 ∧ 1 ≤ m ∧ m ≤ 12 ∧ 1 ≤ d ∧ d ≤ daysInMonth y m)

/-- Model of Python `date.replace(year=y)`: rebuilds the date with the new
year, raising (here: `none`) when the resulting combination is not a valid
date — in particular for a Feb 29 day placed into a non-leap year. -/
def PyDate.replaceYear (d : PyDate) (y : Nat) : Option PyDate :=
  if validDate y d.month d.day then some ⟨y, d.month, d.day⟩ else none

/-- Lexicographic order on dates, as CPython compares `date` objects. -/
def PyDate.lt (a b : PyDate) : Bool :=
  decide (a.year < b.year ∨ (a.year = b.year ∧
    (a.month < b.month ∨ (a.month = b.month ∧ a.day < b.day))))

/-- Days in all years strictly before year `y` (proleptic Gregorian). -/
def daysBeforeYear (y : Nat) : Nat :=
  365 * (y - 1) + (y - 1) / 4 - (y - 1) / 100 + (y - 1) / 400

/-- Days in the months of year `y` strictly before month `m`. -/
def daysBeforeMonth (y m : Nat) : Nat :=
  ((List.range (m - 1)).map (fun k => daysInMonth y (k + 1))).sum

/-- Model of Python `date.toordinal()`: day number with 0001-01-01 as day 1. -/
def PyDate.toOrdinal (d : PyDate) : Nat :=
  daysBeforeYear d.year + daysBeforeMonth d.year d.month + d.day

/-- Model of Python `date.weekday()`: Monday is 0, Sunday is 6.
0001-01-01 (ordinal 1) was a Monday in the proleptic Gregorian calendar. -/
def PyDate.weekday (d : PyDate) : Nat := (d.toOrdinal + 6) % 7

/-- English weekday names as produced by `date.strftime('%A')` in the C
locale, indexed by `PyDate.weekday`. -/
def weekdayName (w : Nat) : String :=
  match w with
  | 0 => "Monday"
  | 1 => "Tuesday"
  | 2 => "Wednesday"
  | 3 => "Thursday"
  | 4 => "Friday"
  | 5 => "Saturday"
  | _ => "Sunday"

/-- Whole-day distance between two dates, the `.days` of a CPython
`timedelta` obtained by subtracting `today` from `occ`. -/
def deltaDays (occ today : PyDate) : Int := (occ.toOrdinal : Int) - (today.toOrdinal : Int)

/-- ASCII decimal digit test (the digits 0-9 only). -/
def isAsciiDigitChar (c : Char) : Bool := decide ('0' ≤ c ∧ c ≤ '9')

/-- Numeric value of a digit character. -/
def digitVal (c : Char) : Nat := c.toNat - 48

/-- The code-point ranges whose characters CPython's `str.isdigit` accepts:
the complete table of characters with Unicode numeric type Decimal or Digit
(Unicode 14.0, as shipped with CPython 3.11) — 788 characters in 81
inclusive ranges, every script's decimal-digit block from ASCII 0030-0039
through Adlam and the segmented digits, together with the digit-valued
superscripts, subscripts, Ethiopic, circled and parenthesised digits. -/
def pyDigitRanges : List (Nat × Nat) := [
  (0x30, 0x39), (0xb2, 0xb3), (0xb9, 0xb9), (0x660, 0x669),
  (0x6f0, 0x6f9), (0x7c0, 0x7c9), (0x966, 0x96f), (0x9e6, 0x9ef),
  (0xa66, 0xa6f), (0xae6, 0xaef), (0xb66, 0xb6f), (0xbe6, 0xbef),
  (0xc66, 0xc6f), (0xce6, 0xcef), (0xd66, 0xd6f), (0xde6, 0xdef),
  (0xe50, 0xe59), (0xed0, 0xed9), (0xf20, 0xf29), (0x1040, 0x1049),
  (0x1090, 0x1099), (0x1369, 0x1371), (0x17e0, 0x17e9), (0x1810, 0x1819),
  (0x1946, 0x194f), (0x19d0, 0x19da), (0x1a80, 0x1a89), (0x1a90, 0x1a99),
  (0x1b50, 0x1b59), (0x1bb0, 0x1bb9), (0x1c40, 0x1c49), (0x1c50, 0x1c59),
  (0x2070, 0x2070), (0x2074, 0x2079), (0x2080, 0x2089), (0x2460, 0x2468),
  (0x2474, 0x247c), (0x2488, 0x2490), (0x24ea, 0x24ea), (0x24f5, 0x24fd),
  (0x24ff, 0x24ff), (0x2776, 0x277e), (0x2780, 0x2788), (0x278a, 0x2792),
  (0xa620, 0xa629), (0xa8d0, 0xa8d9), (0xa900, 0xa909), (0xa9d0, 0xa9d9),
  (0xa9f0, 0xa9f9), (0xaa50, 0xaa59), (0xabf0, 0xabf9), (0xff10, 0xff19),
  (0x104a0, 0x104a9), (0x10a40, 0x10a43), (0x10d30, 0x10d39), (0x10e60, 0x10e68),
  (0x11052, 0x1105a), (0x11066, 0x1106f), (0x110f0, 0x110f9), (0x11136, 0x1113f),
  (0x111d0, 0x111d9), (0x112f0, 0x112f9), (0x11450, 0x11459), (0x114d0, 0x114d9),
  (0x11650, 0x11659), (0x116c0, 0x116c9), (0x11730, 0x11739), (0x118e0, 0x118e9),
  (0x11950, 0x11959), (0x11c50, 0x11c59), (0x11d50, 0x11d59), (0x11da0, 0x11da9),
  (0x16a60, 0x16a69), (0x16ac0, 0x16ac9), (0x16b50, 0x16b59), (0x1d7ce, 0x1d7ff),
  (0x1e140, 0x1e149), (0x1e2f0, 0x1e2f9), (0x1e950, 0x1e959), (0x1f100, 0x1f10a),
  (0x1fbf0, 0x1fbf9)]

/-- Character-level model of Python `str.isdigit`: true exactly when the
character's code point lies in one of the digit ranges of the table. -/
def pyCharIsDigit (c : Char) : Bool :=
  pyDigitRanges.any (fun r => decide (r.1 ≤ c.toNat ∧ c.toNat ≤ r.2))

/-- Model of Python `str.isdigit` on a whole string: non-empty and every
character a digit character. -/
def pyStrIsDigit (s : String) : Bool := !s.toList.isEmpty && s.toList.all pyCharIsDigit

/-- Model of the CPython `_strptime` regex fragment for the `%d` and `%m`
directives: a two-digit field with value `1..hi` is matched when the next two
characters are digits, otherwise a single non-zero digit is matched (`hi` is
31 for `%d`, whose pattern is `3[01]|[12]\d|0[1-9]|[1-9]`, and 12 for `%m`). -/
def parseField2 (hi : Nat) : List Char → Option (Nat × List Char)
  | c1 :: c2 :: rest =>
    if isAsciiDigitChar c1 && isAsciiDigitChar c2 then
      if 1 ≤ 10 * digitVal c1 + digitVal c2 ∧ 10 * digitVal c1 + digitVal c2 ≤ hi then
        some (10 * digitVal c1 + digitVal c2, rest)
      else none
    else if isAsciiDigitChar c1 && decide (1 ≤ digitVal c1) then some (digitVal c1, c2 :: rest)
    else none
  | [c1] =>
    if isAsciiDigitChar c1 && decide (1 ≤ digitVal c1) then some (digitVal c1, []) else none
  | [] => none

/-- Model of the CPython `_strptime` regex fragment for `%Y`: exactly four
digits. -/
def parseYear4 : List Char → Option (Nat × List Char)
  | a :: b :: c :: d :: rest =>
    if isAsciiDigitChar a && isAsciiDigitChar b && isAsciiDigitChar c && isAsciiDigitChar d then
      some (1000 * digitVal a + 100 * digitVal b + 10 * digitVal c + digitVal d, rest)
    else none
  | _ => none

/-- Consume the literal dot of the `%d.%m.%Y` format. -/
def expectDot : List Char → Option (List Char)
  | c :: rest => if c == '.' then some rest else none
  | [] => none

/-- Model of `datetime.strptime(s, '%d.%m.%Y').date()`: match the whole
string against day, dot, month, dot, four-digit year, then build the date,
failing (as the `datetime` constructor does) on an impossible date. -/
def strptimeDMY (s : String) : Option PyDate :=
  match parseField2 31 s.toList with
  | none => none
  | some (d, r1) =>
    match expectDot r1 with
    | none => none
    | some r2 =>
      match parseField2 12 r2 with
      | none => none
      | some (m, r3) =>
        match expectDot r3 with
        | none => none
        | some r4 =>
          match parseYear4 r4 with
          | none => none
          | some (y, r5) =>
            if r5.isEmpty && validDate y m d then some ⟨y, m, d⟩ else none

/-- Decimal digit character of `n % 10`. -/
def natDigitChar (n : Nat) : Char := Char.ofNat (48 + n % 10)

/-- Two-digit zero-padded rendering, as `strftime` renders `%d` and `%m`. -/
def pad2 (n : Nat) : String := String.mk [natDigitChar (n / 10), natDigitChar n]

/-- Rendering of `%Y` as produced by CPython on glibc platforms: the plain
decimal numeral of the year, with no zero padding (a year below 1000 prints
with fewer than four digits). Covers years up to 9999, the `datetime` max. -/
def yearText (y : Nat) : String :=
  if 1000 ≤ y then
    String.mk [natDigitChar (y / 1000), natDigitChar (y / 100), natDigitChar (y / 10), natDigitChar y]
  else if 100 ≤ y then String.mk [natDigitChar (y / 100), natDigitChar (y / 10), natDigitChar y]
  else if 10 ≤ y then String.mk [natDigitChar (y / 10), natDigitChar y]
  else String.mk [natDigitChar y]

/-- Model of `date.strftime('%d.%m.%Y')`. -/
def strftimeDMY (d : PyDate) : String := pad2 d.day ++ "." ++ pad2 d.month ++ "." ++ yearText d.year

/-- Remove the first occurrence of `x` (Python `list.remove` on the object
found by value). -/
def removeFirst : List String → String → List String
  | [], _ => []
  | a :: l, x => if a == x then l else removeFirst l x |> (a :: ·)

/-- Replace the first occurrence of `x` by `y`, preserving position (the
`phones[i] = new` assignments of both source variants). -/
def replaceFirst : List String → String → String → List String
  | [], _, _ => []
  | a :: l, x, y => if a == x then y :: l else replaceFirst l x y |> (a :: ·)

namespace HW07

/-- Message of the `ValueError` raised by `Phone.__init__` in hw-07. -/
def phoneErrorMsg : String := "Invalid phone format. Must be 10 digits."

/-- Validity test of hw-07 `Phone.__init__`: `len(value) == 10 and
value.isdigit()`. -/
def phoneOk (s : String) : Bool := s.length == 10 && pyStrIsDigit s

/-- Model of hw-07 `Phone(value)`: returns the validated value string or
raises. -/
def Phone.construct (s : String) : Except String String :=
  if phoneOk s then .ok s else .error phoneErrorMsg

/-- Message of the `ValueError` raised by hw-07 `Birthday.__init__`. -/
def birthdayErrorMsg : String := "Invalid date format. Use DD.MM.YYYY"

/-- Model of hw-07 `Birthday(value)`: `datetime.strptime(value,
'%d.%m.%Y').date()`, with any `ValueError` converted to the class's own
message. -/
def Birthday.construct (s : String) : Except String PyDate :=
  match strptimeDMY s with
  | some d => .ok d
  | none => .error birthdayErrorMsg

/-- Model of hw-07 `Birthday.__str__`: `value.strftime('%d.%m.%Y')`. -/
def Birthday.toText (d : PyDate) : String := strftimeDMY d

/-- One contact of hw-07: a name, the list of phone value strings and an
optional birthday date. -/
structure Record where
  name : String
  phones : List String
  birthday : Option PyDate
deriving DecidableEq, Repr

/-- Model of hw-07 `Record.__init__`: stores the name (no validation is
performed in the source), an empty phone list and no birthday. -/
def Record.init (name : String) : Record := ⟨name, [], none⟩

/-- Model of hw-07 `Record.find_phone`: first phone equal to the argument. -/
def Record.find_phone (r : Record) (x : String) : Option String :=
  r.phones.find? (fun p => p == x)

/-- Model of hw-07 `Record.add_phone`: validate via `Phone(...)`, append. -/
def Record.add_phone (r : Record) (x : String) : Except String Record :=
  match Phone.construct x with
  | .error e => .error e
  | .ok p => .ok { r with phones := r.phones ++ [p] }

/-- Model of hw-07 `Record.remove_phone`: find by value, remove the found
object, raise `ValueError("Phone not found.")` when absent. -/
def Record.remove_phone (r : Record) (x : String) : Except String Record :=
  match r.find_phone x with
  | none => .error "Phone not found."
  | some _ => .ok { r with phones := removeFirst r.phones x }

/-- Model of hw-07 `Record.edit_phone`: the source looks the old number up
first and raises `ValueError("Old phone number not found.")` when absent;
only then does it construct (and thereby validate) the new `Phone`; on
success the first occurrence of the old number is replaced in place. -/
def Record.edit_phone (r : Record) (oldN newN : String) : Except String Record :=
  match r.find_phone oldN with
  | none => .error "Old phone number not found."
  | some _ =>
    match Phone.construct newN with
    | .error e => .error e
    | .ok p => .ok { r with phones := replaceFirst r.phones oldN p }

/-- Model of hw-07 `Record.add_birthday`: constructs a `Birthday`
(propagating its failure) and overwrites the stored one. -/
def Record.add_birthday (r : Record) (s : String) : Except String Record :=
  match Birthday.construct s with
  | .error e => .error e
  | .ok d => .ok { r with birthday := some d }

/-- The hw-07 `AddressBook`: an insertion-ordered mapping from name to
record, as a CPython dict is. -/
abbrev AddressBook := List (String × Record)

/-- Insertion into a CPython dict: an existing key keeps its position and
gets the new value, a new key is appended at the end. -/
def dictInsert (book : AddressBook) (k : String) (v : Record) : AddressBook :=
  if book.any (fun p => p.1 == k) then
    book.map (fun p => if p.1 == k then (p.1, v) else p)
  else book ++ [(k, v)]

/-- Model of hw-07 `AddressBook.add_record`: `self.data[record.name.value] =
record`. -/
def AddressBook.add_record (book : AddressBook) (r : Record) : AddressBook :=
  dictInsert book r.name r

/-- Model of hw-07 `AddressBook.find`: `self.data.get(name)`. -/
def AddressBook.find (book : AddressBook) (name : String) : Option Record :=
  (book.find? (fun p => p.1 == name)).map Prod.snd

/-- Model of hw-07 `AddressBook.delete`: removes the entry, raising
`KeyError("Contact not found.")` when the name is absent. -/
def AddressBook.delete (book : AddressBook) (name : String) : Except String AddressBook :=
  if book.any (fun p => p.1 == name) then
    .ok (book.filter (fun p => !(p.1 == name)))
  else .error "Contact not found."

/-- Next occurrence of a birthday on the source's algorithm: substitute the
current year into the birthday, and when that date is strictly before today
substitute the next year instead; either substitution can raise (Feb 29 into
a non-leap year), modelled by `none`. -/
def nextOccurrence (bday today : PyDate) : Option PyDate :=
  match bday.replaceYear today.year with
  | none => none
  | some d => if PyDate.lt d today then bday.replaceYear (today.year + 1) else some d

/-- Greeting-day key of the source: the `%A` weekday name of the occurrence,
remapped to Monday when the weekday is Saturday (5) or Sunday (6). -/
def greetKey (occ : PyDate) : String :=
  if occ.weekday == 5 || occ.weekday == 6 then "Monday" else weekdayName occ.weekday

/-- Result shape of the engine: the `users_to_greet` dict from day name to
list of contact names, in insertion order. -/
abbrev Buckets := List (String × List String)

/-- Appending a name under a day key in the `users_to_greet` dict: an
existing key keeps its position and its list grows at the end, a fresh key
is appended with a singleton list. -/
def addToGroup (m : Buckets) (k v : String) : Buckets :=
  if m.any (fun p => p.1 == k) then
    m.map (fun p => if p.1 == k then (p.1, p.2 ++ [v]) else p)
  else m ++ [(k, [v])]

/-- Body of the loop of hw-07 `get_upcoming_birthdays` for one record:
records without a birthday are skipped; the next occurrence is computed (its
failure aborting the whole call); the record contributes exactly when
`0 <= delta_days < 7`, under its greeting-day key. -/
def processRecord (today : PyDate) (acc : Buckets) (r : Record) : Option Buckets :=
  match r.birthday with
  | none => some acc
  | some b =>
    match nextOccurrence b today with
    | none => none
    | some occ =>
      if 0 ≤ deltaDays occ today ∧ deltaDays occ today < 7 then
        some (addToGroup acc (greetKey occ) r.name)
      else some acc

/-- The loop of hw-07 `get_upcoming_birthdays` over the book's records. -/
def runEngine (today : PyDate) : List Record → Buckets → Option Buckets
  | [], acc => some acc
  | r :: rs, acc =>
    match processRecord today acc r with
    | none => none
    | some acc2 => runEngine today rs acc2

/-- Model of hw-07 `AddressBook.get_upcoming_birthdays`. The source computes
`today = datetime.today().date()` inside the method — a wall-clock read; the
embedding makes the value read an explicit `today` argument. -/
def AddressBook.get_upcoming_birthdays (book : AddressBook) (today : PyDate) : Option Buckets :=
  runEngine today (book.map Prod.snd) []

/-- The name `x` is stored under key `k` in a buckets dict. -/
def inKey (m : Buckets) (k x : String) : Prop := ∃ p ∈ m, p.1 = k ∧ x ∈ p.2

/-- The name `x` is stored somewhere in a buckets dict. -/
def mentions (m : Buckets) (x : String) : Prop := ∃ p ∈ m, x ∈ p.2

/-- Greeting-day key a record would be filed under, `none` when the record
does not qualify (no birthday, or occurrence outside the 7-day window); the
abort case of a failing year substitution also yields `none` here and is
excluded separately by the success of the whole run. -/
def incKey (today : PyDate) (r : Record) : Option String :=
  match r.birthday with
  | none => none
  | some b =>
    match nextOccurrence b today with
    | none => none
    | some occ =>
      if 0 ≤ deltaDays occ today ∧ deltaDays occ today < 7 then some (greetKey occ) else none

end HW07

namespace HW06

/-- Message of the `ValueError` raised by hw-06 `Phone.__init__`. -/
def phoneErrorMsg : String :=
  "Неправильний формат телефону. Номер повинен складатися рівно з 10 цифр."

/-- Model of hw-06 `Phone.validate`: `isinstance(phone_number, str) and
phone_number.isdigit() and len(phone_number) == 10` (the `isinstance` test
is vacuous in the embedding, where every value is a string). -/
def Phone.validate (s : String) : Bool := pyStrIsDigit s && s.length == 10

/-- Model of hw-06 `Phone(value)`. -/
def Phone.construct (s : String) : Except String String :=
  if Phone.validate s then .ok s else .error phoneErrorMsg

/-- One contact of hw-06: a name and the list of phone value strings (the
hw-06 variant has no birthday field). -/
structure Record where
  name : String
  phones : List String
deriving DecidableEq, Repr

/-- Model of hw-06 `Record.__init__` (no validation in the source). -/
def Record.init (name : String) : Record := ⟨name, []⟩

/-- Model of hw-06 `Record.find_phone`. -/
def Record.find_phone (r : Record) (x : String) : Option String :=
  r.phones.find? (fun p => p == x)

/-- Model of hw-06 `Record.add_phone`: validate via `Phone(...)` (raising on
failure), append, print a confirmation. -/
def Record.add_phone (r : Record) (x : String) : Except String (Record × String) :=
  match Phone.construct x with
  | .error e => .error e
  | .ok p =>
    .ok ({ r with phones := r.phones ++ [p] },
      "Додано телефон: " ++ x ++ " для контакту " ++ r.name)

/-- Model of hw-06 `Record.remove_phone`: never raises; removes the found
phone and prints a confirmation, or prints a not-found report. -/
def Record.remove_phone (r : Record) (x : String) : Record × String :=
  match r.find_phone x with
  | some _ =>
    ({ r with phones := removeFirst r.phones x },
      "Видалено телефон: " ++ x ++ " у контакту " ++ r.name)
  | none => (r, "Телефон " ++ x ++ " не знайдено у контакту " ++ r.name)

/-- Model of hw-06 `Record.edit_phone`: the whole body is wrapped in
`try/except ValueError`, so a failing validation of the new number is caught
and reported by printing, leaving the phone list unchanged; with a valid new
number the first occurrence of the old one is replaced, or a not-found
report is printed. -/
def Record.edit_phone (r : Record) (oldN newN : String) : Record × String :=
  if Phone.validate newN then
    match r.find_phone oldN with
    | some _ =>
      ({ r with phones := replaceFirst r.phones oldN newN },
        "Телефон " ++ oldN ++ " змінено на " ++ newN ++ " у контакту " ++ r.name)
    | none => (r, "Телефон " ++ oldN ++ " не знайдено у контакту " ++ r.name)
  else (r, "Помилка редагування: " ++ phoneErrorMsg)

/-- The hw-06 `AddressBook`: an insertion-ordered name-to-record mapping. -/
abbrev AddressBook := List (String × Record)

/-- Dict insertion, as in hw-07. -/
def dictInsert (book : AddressBook) (k : String) (v : Record) : AddressBook :=
  if book.any (fun p => p.1 == k) then
    book.map (fun p => if p.1 == k then (p.1, v) else p)
  else book ++ [(k, v)]

/-- Model of hw-06 `AddressBook.add_record` (stores and prints). -/
def AddressBook.add_record (book : AddressBook) (r : Record) : AddressBook × String :=
  (dictInsert book r.name r, "Додано контакт: " ++ r.name)

/-- Model of hw-06 `AddressBook.find`. -/
def AddressBook.find (book : AddressBook) (name : String) : Option Record :=
  (book.find? (fun p => p.1 == name)).map Prod.snd

/-- Model of hw-06 `AddressBook.delete`: never raises; deletes and prints a
confirmation when the name is present, otherwise prints a not-found report
and leaves the book unchanged. -/
def AddressBook.delete (book : AddressBook) (name : String) : AddressBook × String :=
  if book.any (fun p => p.1 == name) then
    (book.filter (fun p => !(p.1 == name)), "Контакт " ++ name ++ " видалено.")
  else (book, "Контакт " ++ name ++ " не знайдено.")

end HW06

/-! Helper lemmas shared by the claim theorems. -/

namespace HW07

theorem inKey_nil (k x : String) : ¬ inKey [] k x := by
  simp [inKey]

theorem mentions_iff_inKey (m : Buckets) (x : String) :
    mentions m x ↔ ∃ k, inKey m k x := by
  constructor
  · rintro ⟨p, hp, hx⟩
    exact ⟨p.1, p, hp, rfl, hx⟩
  · rintro ⟨k, p, hp, _, hx⟩
    exact ⟨p, hp, hx⟩

theorem inKey_addToGroup (m : Buckets) (k v k₀ x : String) :
    inKey (addToGroup m k v) k₀ x ↔ inKey m k₀ x ∨ (k₀ = k ∧ x = v) := by
  unfold addToGroup inKey
  by_cases hfind : m.any (fun p => p.1 == k) = true
  · rw [if_pos hfind]
    rw [List.any_eq_true] at hfind
    obtain ⟨q, hq, hqk⟩ := hfind
    rw [beq_iff_eq] at hqk
    constructor
    · rintro ⟨p', hp', hk₀, hx⟩
      rw [List.mem_map] at hp'
      obtain ⟨p, hp, rfl⟩ := hp'
      by_cases hpk : p.1 = k
      · rw [if_pos (beq_iff_eq.mpr hpk)] at hk₀ hx
        rcases List.mem_append.mp hx with hx2 | hx2
        · exact Or.inl ⟨p, hp, hk₀, hx2⟩
        · exact Or.inr ⟨hk₀ ▸ hpk, List.mem_singleton.mp hx2⟩
      · rw [if_neg (by simpa using hpk)] at hk₀ hx
        exact Or.inl ⟨p, hp, hk₀, hx⟩
    · rintro (⟨p, hp, hk₀, hx⟩ | ⟨hkk, hxv⟩)
      · refine ⟨if p.1 == k then (p.1, p.2 ++ [v]) else p, List.mem_map.mpr ⟨p, hp, rfl⟩, ?_⟩
        by_cases hpk : p.1 = k
        · rw [if_pos (beq_iff_eq.mpr hpk)]
          exact ⟨hk₀, List.mem_append.mpr (Or.inl hx)⟩
        · rw [if_neg (by simpa using hpk)]
          exact ⟨hk₀, hx⟩
      · refine ⟨(q.1, q.2 ++ [v]), ?_, hqk.trans hkk.symm,
          List.mem_append.mpr (Or.inr (List.mem_singleton.mpr hxv))⟩
        refine List.mem_map.mpr ⟨q, hq, ?_⟩
        rw [if_pos (beq_iff_eq.mpr hqk)]
  · rw [if_neg hfind]
    constructor
    · rintro ⟨p, hp, hk₀, hx⟩
      rcases List.mem_append.mp hp with hp2 | hp2
      · exact Or.inl ⟨p, hp2, hk₀, hx⟩
      · rw [List.mem_singleton.mp hp2] at hk₀ hx
        exact Or.inr ⟨hk₀.symm, List.mem_singleton.mp hx⟩
    · rintro (⟨p, hp, hk₀, hx⟩ | ⟨hkk, hxv⟩)
      · exact ⟨p, List.mem_append.mpr (Or.inl hp), hk₀, hx⟩
      · exact ⟨(k, [v]), List.mem_append.mpr (Or.inr (List.mem_singleton.mpr rfl)), hkk.symm,
          List.mem_singleton.mpr hxv⟩

theorem runEngine_inKey (today : PyDate) :
    ∀ (rs : List Record) (acc m : Buckets), runEngine today rs acc = some m →
      ∀ k x, inKey m k x ↔
        inKey acc k x ∨ ∃ r ∈ rs, r.name = x ∧ incKey today r = some k := by
  intro rs
  induction rs with
  | nil =>
    intro acc m h k x
    simp only [runEngine, Option.some_inj] at h
    subst h
    simp
  | cons r rs ih =>
    intro acc m h k x
    simp only [runEngine] at h
    rcases hpr : processRecord today acc r with _ | acc2
    · rw [hpr] at h; cases h
    · rw [hpr] at h
      have hih := ih acc2 m h k x
      have hkey : incKey today r = none → acc2 = acc := by
        intro hnone
        unfold processRecord at hpr
        unfold incKey at hnone
        rcases hb : r.birthday with _ | b
        · simp only [hb] at hpr
          exact (Option.some_inj.mp hpr).symm
        · simp only [hb] at hpr hnone
          rcases hocc : nextOccurrence b today with _ | occ
          · simp only [hocc] at hpr
            cases hpr
          · simp only [hocc] at hpr hnone
            by_cases hin : 0 ≤ deltaDays occ today ∧ deltaDays occ today < 7
            · rw [if_pos hin] at hnone; cases hnone
            · rw [if_neg hin] at hpr
              exact (Option.some_inj.mp hpr).symm
      have hkey2 : ∀ kk, incKey today r = some kk → acc2 = addToGroup acc kk r.name := by
        intro kk hsome
        unfold processRecord at hpr
        unfold incKey at hsome
        rcases hb : r.birthday with _ | b
        · simp only [hb] at hsome
          cases hsome
        · simp only [hb] at hpr hsome
          rcases hocc : nextOccurrence b today with _ | occ
          · simp only [hocc] at hsome
            cases hsome
          · simp only [hocc] at hpr hsome
            by_cases hin : 0 ≤ deltaDays occ today ∧ deltaDays occ today < 7
            · rw [if_pos hin] at hpr hsome
              rw [← Option.some_inj.mp hsome]
              exact (Option.some_inj.mp hpr).symm
            · rw [if_neg hin] at hsome; cases hsome
      rw [hih]
      rcases hik : incKey today r with _ | kk
      · rw [hkey hik]
        constructor
        · rintro (hacc | ⟨r', hr', hn, hk⟩)
          · exact Or.inl hacc
          · exact Or.inr ⟨r', List.mem_cons_of_mem r hr', hn, hk⟩
        · rintro (hacc | ⟨r', hr', hn, hk⟩)
          · exact Or.inl hacc
          · rcases List.mem_cons.mp hr' with h' | hr2
            · rw [h'] at hk
              rw [hik] at hk; cases hk
            · exact Or.inr ⟨r', hr2, hn, hk⟩
      · rw [hkey2 kk hik, inKey_addToGroup]
        constructor
        · rintro ((hacc | ⟨hkk, hxn⟩) | ⟨r', hr', hn, hk⟩)
          · exact Or.inl hacc
          · exact Or.inr ⟨r, List.mem_cons_self r rs, hxn.symm, hkk ▸ hik⟩
          · exact Or.inr ⟨r', List.mem_cons_of_mem r hr', hn, hk⟩
        · rintro (hacc | ⟨r', hr', hn, hk⟩)
          · exact Or.inl (Or.inl hacc)
          · rcases List.mem_cons.mp hr' with h' | hr2
            · rw [h'] at hk hn
              rw [hik] at hk
              exact Or.inl (Or.inr ⟨(Option.some_inj.mp hk).symm, hn.symm⟩)
            · exact Or.inr ⟨r', hr2, hn, hk⟩

theorem incKey_isSome_iff (today : PyDate) (r : Record) :
    (incKey today r).isSome = true ↔
      ∃ b occ, r.birthday = some b ∧ nextOccurrence b today = some occ ∧
        0 ≤ deltaDays occ today ∧ deltaDays occ today < 7 := by
  unfold incKey
  rcases hb : r.birthday with _ | b
  · simp
  · simp only
    rcases hocc : nextOccurrence b today with _ | occ
    · simp [hocc]
    · simp only [hocc]
      by_cases hin : 0 ≤ deltaDays occ today ∧ deltaDays occ today < 7
      · rw [if_pos hin]
        exact ⟨fun _ => ⟨b, occ, rfl, hocc, hin.1, hin.2⟩, fun _ => rfl⟩
      · rw [if_neg hin]
        constructor
        · intro hF
          simp at hF
        · rintro ⟨b', occ', hb', hocc', h0, h7⟩
          rw [← Option.some_inj.mp hb'] at hocc'
          rw [hocc] at hocc'
          have heq := Option.some_inj.mp hocc'
          exact (hin ⟨heq ▸ h0, heq ▸ h7⟩).elim

end HW07

namespace HW07

/-- Well-formedness of an address book, as guaranteed by the CPython dict
keyed with each record's name: keys are pairwise distinct and every stored
record's name equals its key. -/
def WellKeyed (book : AddressBook) : Prop :=
  (book.map Prod.fst).Nodup ∧ ∀ p ∈ book, p.2.name = p.1

theorem names_nodup_of_wellKeyed (book : AddressBook) (h : WellKeyed book) :
    ((book.map Prod.snd).map Record.name).Nodup := by
  rw [List.map_map]
  have hmap : book.map (Record.name ∘ Prod.snd) = book.map Prod.fst :=
    List.map_congr_left (fun p hp => h.2 p hp)
  rw [hmap]
  exact h.1

/-- Record of the worked example: John with two phones and birthday
15.06.1990. -/
def recJohn : Record := ⟨"John", ["1234567890", "5555555555"], some ⟨1990, 6, 15⟩⟩

/-- Record of the worked example: Jane with one phone and no birthday. -/
def recJane : Record := ⟨"Jane", ["9876543210"], none⟩

/-- Sample book built through `add_record`, as in the source's main block. -/
def sampleBook : AddressBook :=
  AddressBook.add_record (AddressBook.add_record [] recJohn) recJane

end HW07

/-- C1 (confirmed): for every record of the book that has a birthday set,
the upcoming-birthdays engine includes that record's name in its result if
and only if `deltaDays`, the whole-day distance from the reference date to
the birthday's next occurrence (month/day placed on the reference year,
advanced by one year when strictly before the reference date), satisfies
`0 <= deltaDays < 7`; records with no birthday set are never included. The
hypotheses state that the engine returned a result (no exception was
raised) and that the book is well-keyed, as the source's dict keyed by
record name guarantees. -/
theorem upcoming_includes_iff (book : HW07.AddressBook) (today : PyDate)
    (m : HW07.Buckets) (r : HW07.Record) (hwk : HW07.WellKeyed book)
    (hr : r ∈ book.map Prod.snd)
    (hrun : HW07.AddressBook.get_upcoming_birthdays book today = some m) :
    HW07.mentions m r.name ↔
      ∃ b occ, r.birthday = some b ∧ HW07.nextOccurrence b today = some occ ∧
        0 ≤ deltaDays occ today ∧ deltaDays occ today < 7 := by
  have hnodup := HW07.names_nodup_of_wellKeyed book hwk
  have hrun' : HW07.runEngine today (book.map Prod.snd) [] = some m := hrun
  rw [HW07.mentions_iff_inKey]
  constructor
  · rintro ⟨k, hk⟩
    rw [HW07.runEngine_inKey today _ _ _ hrun' k r.name] at hk
    rcases hk with h0 | ⟨r', hr', hn, hkk⟩
    · exact absurd h0 (HW07.inKey_nil k r.name)
    · have heq : r' = r := List.inj_on_of_nodup_map hnodup hr' hr hn
      rw [heq] at hkk
      rw [← HW07.incKey_isSome_iff]
      rw [hkk]
      rfl
  · intro hrhs
    have hsome : (HW07.incKey today r).isSome = true :=
      (HW07.incKey_isSome_iff today r).mpr hrhs
    rcases Option.isSome_iff_exists.mp hsome with ⟨k, hk⟩
    exact ⟨k, (HW07.runEngine_inKey today _ _ _ hrun' k r.name).mpr (Or.inr ⟨r, hr, rfl, hk⟩)⟩

/-- C1 witness: on the sample book with today 2024-06-10, John (birthday
15.06.1990) is mentioned in the engine's result. -/
theorem upcoming_includes_iff_witness :
    HW07.mentions [("Monday", ["John"])] "John" :=
  (upcoming_includes_iff HW07.sampleBook ⟨2024, 6, 10⟩ [("Monday", ["John"])] HW07.recJohn
      ⟨by decide, by decide⟩ (by decide) (by decide)).mpr
    ⟨⟨1990, 6, 15⟩, ⟨2024, 6, 15⟩, rfl, by decide, by decide, by decide⟩

/-- C2 (confirmed): every record the engine includes is grouped under the
greeting key of its birthday's next occurrence — the `%A` weekday name,
remapped to Monday when the weekday is Saturday or Sunday — and under no
other key. The accompanying witness checks the concrete instance of the
claim: today 2024-06-10, birthday 15.06.1990, next occurrence 2024-06-15
(Saturday, `deltaDays = 5`), filed under Monday. -/
theorem upcoming_grouped_weekend_rollforward (book : HW07.AddressBook) (today : PyDate)
    (m : HW07.Buckets) (r : HW07.Record) (b occ : PyDate)
    (hwk : HW07.WellKeyed book) (hr : r ∈ book.map Prod.snd)
    (hrun : HW07.AddressBook.get_upcoming_birthdays book today = some m)
    (hb : r.birthday = some b) (hocc : HW07.nextOccurrence b today = some occ)
    (h0 : 0 ≤ deltaDays occ today) (h7 : deltaDays occ today < 7) :
    HW07.inKey m (HW07.greetKey occ) r.name ∧
      ∀ k, HW07.inKey m k r.name → k = HW07.greetKey occ := by
  have hnodup := HW07.names_nodup_of_wellKeyed book hwk
  have hrun' : HW07.runEngine today (book.map Prod.snd) [] = some m := hrun
  have hik : HW07.incKey today r = some (HW07.greetKey occ) := by
    unfold HW07.incKey
    simp only [hb, hocc]
    rw [if_pos ⟨h0, h7⟩]
  constructor
  · exact (HW07.runEngine_inKey today _ _ _ hrun' (HW07.greetKey occ) r.name).mpr
      (Or.inr ⟨r, hr, rfl, hik⟩)
  · intro k hk
    rw [HW07.runEngine_inKey today _ _ _ hrun' k r.name] at hk
    rcases hk with h0' | ⟨r', hr', hn, hkk⟩
    · exact absurd h0' (HW07.inKey_nil k r.name)
    · have heq : r' = r := List.inj_on_of_nodup_map hnodup hr' hr hn
      rw [heq, hik] at hkk
      exact (Option.some_inj.mp hkk).symm

/-- C2 witness: the concrete instance of the claim — today 2024-06-10,
birthday 15.06.1990, next occurrence 2024-06-15 which is a Saturday
(weekday 5) five days away, and John is filed under Monday. -/
theorem upcoming_grouped_weekend_rollforward_witness :
    HW07.nextOccurrence ⟨1990, 6, 15⟩ ⟨2024, 6, 10⟩ = some ⟨2024, 6, 15⟩ ∧
    (⟨2024, 6, 15⟩ : PyDate).weekday = 5 ∧
    deltaDays ⟨2024, 6, 15⟩ ⟨2024, 6, 10⟩ = 5 ∧
    HW07.greetKey ⟨2024, 6, 15⟩ = "Monday" ∧
    HW07.inKey [("Monday", ["John"])] "Monday" "John" := by
  refine ⟨by decide, by decide, by decide, by decide, ?_⟩
  have h := (upcoming_grouped_weekend_rollforward HW07.sampleBook ⟨2024, 6, 10⟩
    [("Monday", ["John"])] HW07.recJohn ⟨1990, 6, 15⟩ ⟨2024, 6, 15⟩
    ⟨by decide, by decide⟩ (by decide) (by decide) rfl (by decide) (by decide) (by decide)).1
  rwa [show HW07.greetKey ⟨2024, 6, 15⟩ = "Monday" by decide] at h

namespace HW07

theorem processRecord_congr (today : PyDate) (acc : Buckets) (r1 r2 : Record)
    (hn : r1.name = r2.name) (hb : r1.birthday = r2.birthday) :
    processRecord today acc r1 = processRecord today acc r2 := by
  unfold processRecord
  rw [hb, hn]

theorem runEngine_congr (today : PyDate) :
    ∀ (rs1 rs2 : List Record) (acc : Buckets),
      rs1.map (fun r => (r.name, r.birthday)) = rs2.map (fun r => (r.name, r.birthday)) →
      runEngine today rs1 acc = runEngine today rs2 acc := by
  intro rs1
  induction rs1 with
  | nil =>
    intro rs2 acc h
    rcases rs2 with _ | ⟨r2, rs2⟩
    · rfl
    · simp at h
  | cons r1 rs1 ih =>
    intro rs2 acc h
    rcases rs2 with _ | ⟨r2, rs2⟩
    · simp at h
    · simp only [List.map_cons, List.cons.injEq, Prod.mk.injEq] at h
      obtain ⟨⟨hn, hb⟩, htl⟩ := h
      simp only [runEngine]
      rw [processRecord_congr today acc r1 r2 hn hb]
      rcases processRecord today acc r2 with _ | acc2
      · rfl
      · exact ih rs2 acc2 htl

end HW07

/-- C5 (corrected): modelling the wall-clock read `datetime.today().date()`
inside `get_upcoming_birthdays` as the explicit `today` input, the engine is
a pure function of the book contents and that date: its output is fully
determined by the stored records' names and birthdays together with the
reference date — in particular it is independent of the records' phone
lists and of everything else in the process. (The claim's further assertion
that the date is injected by the caller rather than read from the wall
clock is refuted by the counterexample theorem.) -/
theorem engine_pure (book1 book2 : HW07.AddressBook) (today : PyDate)
    (h : book1.map (fun p => (p.2.name, p.2.birthday)) =
      book2.map (fun p => (p.2.name, p.2.birthday))) :
    HW07.AddressBook.get_upcoming_birthdays book1 today =
      HW07.AddressBook.get_upcoming_birthdays book2 today := by
  unfold HW07.AddressBook.get_upcoming_birthdays
  apply HW07.runEngine_congr
  rw [List.map_map, List.map_map]
  exact h

/-- C5 witness: two books whose records agree on names and birthdays but
hold different phone lists produce the same engine output. -/
theorem engine_pure_witness :
    HW07.AddressBook.get_upcoming_birthdays
        [("John", ⟨"John", ["1234567890"], some ⟨1990, 6, 15⟩⟩)] ⟨2024, 6, 10⟩ =
      HW07.AddressBook.get_upcoming_birthdays
        [("John", ⟨"John", ["5555555555", "9876543210"], some ⟨1990, 6, 15⟩⟩)] ⟨2024, 6, 10⟩ :=
  engine_pure [("John", ⟨"John", ["1234567890"], some ⟨1990, 6, 15⟩⟩)]
    [("John", ⟨"John", ["5555555555", "9876543210"], some ⟨1990, 6, 15⟩⟩)]
    ⟨2024, 6, 10⟩ (by decide)

/-- C5 counterexample: the source's `get_upcoming_birthdays` takes no date
parameter — it reads `datetime.today().date()` from the wall clock inside
the method. Modelling that read as the engine's date input, one fixed book
yields different results on different wall-clock dates, refuting the
claim's assertion that the computation is independent of the wall clock and
uses an injected reference date. -/
theorem engine_wallclock_dependence :
    HW07.AddressBook.get_upcoming_birthdays HW07.sampleBook ⟨2024, 6, 10⟩ ≠
      HW07.AddressBook.get_upcoming_birthdays HW07.sampleBook ⟨2024, 7, 10⟩ := by
  decide

/-- The hw-06 validity test equals the hw-07 one: the same length-10 and
isdigit conjuncts, written in the other order (the `isinstance` conjunct is
vacuous on strings). -/
theorem phone_validate_eq (s : String) : HW06.Phone.validate s = HW07.phoneOk s := by
  unfold HW06.Phone.validate HW07.phoneOk
  exact Bool.and_comm _ _

/-- C3 (corrected, amended): `Phone` construction succeeds for every
10-character string whose characters CPython's `str.isdigit` classifies as
digits — a set that contains all ASCII decimal digits but is wider — and
fails with the phone ValidationError for every string of a different length
and for every string containing a character outside that digit
classification; the hw-06 validity test agrees with the hw-07 one. -/
theorem phone_construct_classification (s : String) :
    (s.length = 10 → (∀ c ∈ s.toList, pyCharIsDigit c = true) →
      HW07.Phone.construct s = Except.ok s) ∧
    (s.length ≠ 10 → HW07.Phone.construct s = Except.error HW07.phoneErrorMsg) ∧
    ((∃ c ∈ s.toList, pyCharIsDigit c = false) →
      HW07.Phone.construct s = Except.error HW07.phoneErrorMsg) ∧
    ((∀ c ∈ s.toList, isAsciiDigitChar c = true) → ∀ c ∈ s.toList, pyCharIsDigit c = true) ∧
    HW06.Phone.validate s = HW07.phoneOk s := by
  refine ⟨?_, ?_, ?_, ?_, phone_validate_eq s⟩
  · intro hlen hdig
    have hne : s.data ≠ [] := by
      intro hnil
      have h0 : s.length = 0 := by
        show s.data.length = 0
        rw [hnil]
        rfl
      omega
    have hok : HW07.phoneOk s = true := by
      unfold HW07.phoneOk pyStrIsDigit
      rw [Bool.and_eq_true, Bool.and_eq_true]
      refine ⟨by simp [hlen], ?_, ?_⟩
      · simpa [List.isEmpty_iff] using hne
      · rw [List.all_eq_true]
        exact hdig
    unfold HW07.Phone.construct
    rw [if_pos hok]
  · intro hlen
    have hok : HW07.phoneOk s = false := by
      unfold HW07.phoneOk
      rw [Bool.and_eq_false_iff]
      left
      simpa using hlen
    unfold HW07.Phone.construct
    rw [hok]
    rfl
  · rintro ⟨c, hc, hcd⟩
    have hok : HW07.phoneOk s = false := by
      unfold HW07.phoneOk pyStrIsDigit
      rw [Bool.and_eq_false_iff]
      right
      rw [Bool.and_eq_false_iff]
      right
      rw [List.all_eq_false]
      exact ⟨c, hc, by simp [hcd]⟩
    unfold HW07.Phone.construct
    rw [hok]
    rfl
  · intro hall c hc
    have h := hall c hc
    unfold isAsciiDigitChar at h
    rw [decide_eq_true_eq] at h
    unfold pyCharIsDigit
    rw [List.any_eq_true]
    refine ⟨(0x30, 0x39), by decide, ?_⟩
    rw [decide_eq_true_eq]
    exact ⟨Char.le_def.mp h.1, Char.le_def.mp h.2⟩

/-- C3 witness: the ASCII ten-digit string 1234567890 is accepted by the
hw-07 constructor. -/
theorem phone_construct_classification_witness :
    HW07.Phone.construct "1234567890" = Except.ok "1234567890" :=
  (phone_construct_classification "1234567890").1 (by decide) (by decide)

/-- C3 counterexample: the ten-character string of Arabic-Indic digit zeros
(U+0660) contains no ASCII decimal digit, yet CPython's `str.isdigit`
classifies those characters as digits, so construction succeeds instead of
failing with a ValidationError as the claim demands for every string that
is not ten ASCII digits. -/
theorem phone_unicode_digit_accepted :
    ("٠٠٠٠٠٠٠٠٠٠" : String).length = 10 ∧
    ("٠٠٠٠٠٠٠٠٠٠" : String).toList.all isAsciiDigitChar = false ∧
    HW07.Phone.construct "٠٠٠٠٠٠٠٠٠٠" = Except.ok "٠٠٠٠٠٠٠٠٠٠" := by
  decide

/-- C4 counterexample: with the invalid new number "abc" and an old number
absent from the record, hw-07's `edit_phone` raises the not-found error and
not the phone ValidationError: the source searches for the old number
before validating the new one, against the claim's validate-before-search
order. -/
theorem edit_phone_searches_before_validating :
    HW07.phoneOk "abc" = false ∧
    HW07.Record.edit_phone ⟨"John", ["1234567890"], none⟩ "9999999999" "abc"
      = Except.error "Old phone number not found." ∧
    "Old phone number not found." ≠ HW07.phoneErrorMsg := by
  decide

/-- C4 (corrected, amended): with an invalid new number the hw-07
`edit_phone` always fails and leaves the record unchanged (no partial
mutation: the error is raised before any assignment), but the signalled
error reflects a search done first — the not-found error when the old
number is absent, the phone ValidationError when it is present; the hw-06
variant does validate the new number first but reports the failure by
printing a message rather than signalling, likewise leaving the phone list
unchanged. -/
theorem edit_phone_invalid_new (r7 : HW07.Record) (r6 : HW06.Record) (oldN newN : String)
    (hbad : HW07.phoneOk newN = false) :
    (HW07.Record.find_phone r7 oldN = none →
      HW07.Record.edit_phone r7 oldN newN = Except.error "Old phone number not found.") ∧
    (HW07.Record.find_phone r7 oldN ≠ none →
      HW07.Record.edit_phone r7 oldN newN = Except.error HW07.phoneErrorMsg) ∧
    HW06.Record.edit_phone r6 oldN newN
      = (r6, "Помилка редагування: " ++ HW06.phoneErrorMsg) := by
  refine ⟨?_, ?_, ?_⟩
  · intro hfind
    unfold HW07.Record.edit_phone
    rw [hfind]
  · intro hfind
    rcases Option.ne_none_iff_exists.mp hfind with ⟨p, hp⟩
    unfold HW07.Record.edit_phone
    rw [← hp]
    have hcons : HW07.Phone.construct newN = Except.error HW07.phoneErrorMsg := by
      unfold HW07.Phone.construct
      rw [hbad]
      rfl
    rw [hcons]
  · unfold HW06.Record.edit_phone
    rw [phone_validate_eq, hbad]
    rfl

/-- C4 witness: the concrete record with phone 1234567890, editing that
number to the invalid "abc": hw-07 signals the ValidationError, hw-06
returns the record unchanged with the printed report. -/
theorem edit_phone_invalid_new_witness :
    HW07.Record.edit_phone ⟨"John", ["1234567890"], none⟩ "1234567890" "abc"
      = Except.error HW07.phoneErrorMsg ∧
    HW06.Record.edit_phone ⟨"John", ["1234567890"]⟩ "1234567890" "abc"
      = (⟨"John", ["1234567890"]⟩, "Помилка редагування: " ++ HW06.phoneErrorMsg) := by
  have h := edit_phone_invalid_new ⟨"John", ["1234567890"], none⟩ ⟨"John", ["1234567890"]⟩
    "1234567890" "abc" (by decide)
  exact ⟨h.2.1 (by decide), h.2.2⟩

/-- C7 (confirmed): a Feb 29 birthday makes the engine fail when the
substituted year is not a leap year: with today 2025-01-01 the substitution
of 2025 into 29.02.1992 is not a valid date, so `nextOccurrence` raises and
`get_upcoming_birthdays` propagates the failure instead of clamping to
Feb 28 or Mar 1. -/
theorem feb29_substitution_raises :
    HW07.Record.add_birthday (HW07.Record.init "Alice") "29.02.1992"
      = Except.ok ⟨"Alice", [], some ⟨1992, 2, 29⟩⟩ ∧
    isLeapYear 2025 = false ∧
    PyDate.replaceYear ⟨1992, 2, 29⟩ 2025 = none ∧
    HW07.nextOccurrence ⟨1992, 2, 29⟩ ⟨2025, 1, 1⟩ = none ∧
    HW07.AddressBook.get_upcoming_birthdays
      [("Alice", ⟨"Alice", [], some ⟨1992, 2, 29⟩⟩)] ⟨2025, 1, 1⟩ = none := by
  decide

/-- A key lookup finds nothing in a list from which all pairs with that key
were filtered out. -/
theorem find?_key_filter_none {α : Type} (l : List (String × α)) (name : String) :
    (l.filter (fun p => !(p.1 == name))).find? (fun p => p.1 == name) = none := by
  rw [List.find?_eq_none]
  intro p hp
  have hkeep := (List.mem_filter.mp hp).2
  simp only [Bool.not_eq_true'] at hkeep
  simp [hkeep]

/-- A key lookup finds nothing when no pair has the key. -/
theorem find?_key_none_of_any_false {α : Type} (l : List (String × α)) (name : String)
    (h : l.any (fun p => p.1 == name) = false) :
    l.find? (fun p => p.1 == name) = none := by
  rw [List.find?_eq_none]
  rw [List.any_eq_false] at h
  exact h

/-- C8 counterexample: in the hw-06 variant, deleting an absent name does
not signal anything: the call returns normally with the book unchanged and
a printed not-found report, so the claim that `delete` signals a
NotFoundError exactly when the name is absent fails on this variant. -/
theorem delete_absent_hw06_prints :
    HW06.AddressBook.find [] "Jane" = none ∧
    HW06.AddressBook.delete [] "Jane" = ([], "Контакт Jane не знайдено.") := by
  decide

/-- C8 (corrected, amended): in hw-07, `delete` signals the KeyError
"Contact not found." exactly when no record is stored under the name, and
after a successful delete a `find` on the same name returns absent; in
hw-06, `delete` never signals — on an absent name it returns the unchanged
book with a printed report — but there too a `find` after the delete
returns absent. -/
theorem delete_then_find (book7 : HW07.AddressBook) (book6 : HW06.AddressBook) (name : String) :
    (HW07.AddressBook.delete book7 name = Except.error "Contact not found." ↔
      HW07.AddressBook.find book7 name = none) ∧
    (∀ book', HW07.AddressBook.delete book7 name = Except.ok book' →
      HW07.AddressBook.find book' name = none) ∧
    HW06.AddressBook.find (HW06.AddressBook.delete book6 name).1 name = none ∧
    (HW06.AddressBook.find book6 name = none →
      HW06.AddressBook.delete book6 name = (book6, "Контакт " ++ name ++ " не знайдено.")) := by
  refine ⟨?_, ?_, ?_, ?_⟩
  · unfold HW07.AddressBook.delete HW07.AddressBook.find
    by_cases hany : book7.any (fun p => p.1 == name) = true
    · rw [if_pos hany]
      constructor
      · intro h; cases h
      · intro h
        rw [Option.map_eq_none'] at h
        rw [List.find?_eq_none] at h
        rw [List.any_eq_true] at hany
        obtain ⟨p, hp, hpk⟩ := hany
        exact absurd hpk (h p hp)
    · rw [if_neg hany]
      refine ⟨fun _ => ?_, fun _ => rfl⟩
      rw [Option.map_eq_none']
      exact find?_key_none_of_any_false book7 name
        (by simp only [Bool.not_eq_true] at hany; exact hany)
  · intro book' h
    unfold HW07.AddressBook.delete at h
    by_cases hany : book7.any (fun p => p.1 == name) = true
    · rw [if_pos hany] at h
      have hb : book' = book7.filter (fun p => !(p.1 == name)) :=
        (Except.ok.inj h).symm
      unfold HW07.AddressBook.find
      rw [hb, Option.map_eq_none']
      exact find?_key_filter_none book7 name
    · rw [if_neg hany] at h
      cases h
  · unfold HW06.AddressBook.delete
    by_cases hany : book6.any (fun p => p.1 == name) = true
    · rw [if_pos hany]
      unfold HW06.AddressBook.find
      rw [Option.map_eq_none']
      exact find?_key_filter_none book6 name
    · rw [if_neg hany]
      unfold HW06.AddressBook.find
      rw [Option.map_eq_none']
      exact find?_key_none_of_any_false book6 name
        (by simp only [Bool.not_eq_true] at hany; exact hany)
  · intro hfind
    unfold HW06.AddressBook.find at hfind
    rw [Option.map_eq_none'] at hfind
    unfold HW06.AddressBook.delete
    rw [if_neg ?_]
    intro hany
    rw [List.any_eq_true] at hany
    obtain ⟨p, hp, hpk⟩ := hany
    rw [List.find?_eq_none] at hfind
    exact absurd hpk (hfind p hp)

/-- C8 witness: deleting Jane from a two-record hw-07 book succeeds and a
subsequent find returns absent; same for a one-record hw-06 book. -/
theorem delete_then_find_witness :
    HW07.AddressBook.find [("John", HW07.recJohn)] "Jane" = none ∧
    HW06.AddressBook.find
      (HW06.AddressBook.delete [("Jane", ⟨"Jane", ["9876543210"]⟩)] "Jane").1 "Jane" = none := by
  have h7 := (delete_then_find [("John", HW07.recJohn), ("Jane", HW07.recJane)]
    [("Jane", ⟨"Jane", ["9876543210"]⟩)] "Jane").2.1
  have h6 := (delete_then_find [("John", HW07.recJohn), ("Jane", HW07.recJane)]
    [("Jane", ⟨"Jane", ["9876543210"]⟩)] "Jane").2.2.1
  exact ⟨h7 [("John", HW07.recJohn)] (by decide), h6⟩

/-- C9 counterexample: `Record.__init__` performs no name validation in
either source variant: constructing a record from the empty name succeeds —
with that empty name, no phones and no birthday — instead of failing with a
ValidationError as the claim requires. -/
theorem record_empty_name_accepted :
    HW07.Record.init "" = ⟨"", [], none⟩ ∧ HW06.Record.init "" = ⟨"", []⟩ := by
  decide

/-- C9 (corrected, amended): record construction never fails: for every
name string, the empty one included, it succeeds and yields exactly that
name, an empty phone list and (in hw-07) no birthday. -/
theorem record_init_total (name : String) :
    (HW07.Record.init name).name = name ∧ (HW07.Record.init name).phones = [] ∧
    (HW07.Record.init name).birthday = none ∧
    (HW06.Record.init name).name = name ∧ (HW06.Record.init name).phones = [] :=
  ⟨rfl, rfl, rfl, rfl, rfl⟩

/-- Every element surviving `removeFirst` was in the original list. -/
theorem mem_removeFirst (x p : String) :
    ∀ l : List String, p ∈ removeFirst l x → p ∈ l := by
  intro l
  induction l with
  | nil => intro h; cases h
  | cons a l ih =>
    intro h
    unfold removeFirst at h
    by_cases hax : (a == x) = true
    · rw [if_pos hax] at h
      exact List.mem_cons_of_mem a h
    · rw [if_neg hax] at h
      rcases List.mem_cons.mp h with h1 | h2
      · rw [h1]; exact List.mem_cons_self a l
      · exact List.mem_cons_of_mem a (ih h2)

/-- Every element of `replaceFirst l x y` was in the original list or is the
replacement. -/
theorem mem_replaceFirst (x y p : String) :
    ∀ l : List String, p ∈ replaceFirst l x y → p ∈ l ∨ p = y := by
  intro l
  induction l with
  | nil => intro h; cases h
  | cons a l ih =>
    intro h
    unfold replaceFirst at h
    by_cases hax : (a == x) = true
    · rw [if_pos hax] at h
      rcases List.mem_cons.mp h with h1 | h2
      · exact Or.inr h1
      · exact Or.inl (List.mem_cons_of_mem a h2)
    · rw [if_neg hax] at h
      rcases List.mem_cons.mp h with h1 | h2
      · rw [h1]; exact Or.inl (List.mem_cons_self a l)
      · rcases ih h2 with h3 | h3
        · exact Or.inl (List.mem_cons_of_mem a h3)
        · exact Or.inr h3

/-- Success of the hw-07 phone constructor means the value passed the
validity test and is returned unchanged. -/
theorem phone_construct_ok_iff (s p : String) :
    HW07.Phone.construct s = Except.ok p ↔ HW07.phoneOk s = true ∧ p = s := by
  unfold HW07.Phone.construct
  by_cases h : HW07.phoneOk s = true
  · rw [if_pos h]
    constructor
    · intro he
      exact ⟨h, (Except.ok.inj he).symm⟩
    · rintro ⟨_, rfl⟩
      rfl
  · rw [if_neg h]
    constructor
    · intro he; cases he
    · rintro ⟨hok, _⟩
      exact absurd hok h

/-- The claim's phrase for a stored phone: a string of exactly ten digit
characters (in CPython's digit classification). -/
def PhonesValid (l : List String) : Prop :=
  ∀ p ∈ l, p.length = 10 ∧ p.toList.all pyCharIsDigit = true

/-- Passing the source's validity test yields the claim's property. -/
theorem phoneOk_spec (p : String) (h : HW07.phoneOk p = true) :
    p.length = 10 ∧ p.toList.all pyCharIsDigit = true := by
  unfold HW07.phoneOk pyStrIsDigit at h
  rw [Bool.and_eq_true, Bool.and_eq_true] at h
  exact ⟨by simpa using h.1, h.2.2⟩

/-- C10 (confirmed): every phone stored in a record's phone list is a
string of exactly ten digit characters: the invariant holds for a freshly
constructed record (empty list) and is preserved by `add_phone`,
`remove_phone` and `edit_phone` in both source variants, because phones
enter the list only through the validating `Phone` constructor. -/
theorem phones_invariant (name x oldN newN msg : String)
    (r7 r7a r7r r7e : HW07.Record) (r6 r6a : HW06.Record) :
    PhonesValid (HW07.Record.init name).phones ∧
    (HW07.Record.add_phone r7 x = Except.ok r7a →
      PhonesValid r7.phones → PhonesValid r7a.phones) ∧
    (HW07.Record.remove_phone r7 x = Except.ok r7r →
      PhonesValid r7.phones → PhonesValid r7r.phones) ∧
    (HW07.Record.edit_phone r7 oldN newN = Except.ok r7e →
      PhonesValid r7.phones → PhonesValid r7e.phones) ∧
    PhonesValid (HW06.Record.init name).phones ∧
    (HW06.Record.add_phone r6 x = Except.ok (r6a, msg) →
      PhonesValid r6.phones → PhonesValid r6a.phones) ∧
    (PhonesValid r6.phones → PhonesValid (HW06.Record.remove_phone r6 x).1.phones) ∧
    (PhonesValid r6.phones → PhonesValid (HW06.Record.edit_phone r6 oldN newN).1.phones) := by
  refine ⟨?_, ?_, ?_, ?_, ?_, ?_, ?_, ?_⟩
  · intro p hp; cases hp
  · intro h hv
    unfold HW07.Record.add_phone at h
    rcases hcons : HW07.Phone.construct x with e | px
    · rw [hcons] at h; cases h
    · rw [hcons] at h
      obtain ⟨hok, hpx⟩ := (phone_construct_ok_iff x px).mp hcons
      have hph : r7a.phones = r7.phones ++ [px] := by
        rw [← Except.ok.inj h]
      rw [hph]
      intro p hp
      rcases List.mem_append.mp hp with h1 | h1
      · exact hv p h1
      · rw [List.mem_singleton.mp h1, hpx]
        exact phoneOk_spec x hok
  · intro h hv
    unfold HW07.Record.remove_phone at h
    rcases hf : HW07.Record.find_phone r7 x with _ | px
    · rw [hf] at h; cases h
    · rw [hf] at h
      have hph : r7r.phones = removeFirst r7.phones x := by
        rw [← Except.ok.inj h]
      rw [hph]
      intro p hp
      exact hv p (mem_removeFirst x p r7.phones hp)
  · intro h hv
    unfold HW07.Record.edit_phone at h
    rcases hf : HW07.Record.find_phone r7 oldN with _ | px
    · rw [hf] at h; cases h
    · rw [hf] at h
      rcases hcons : HW07.Phone.construct newN with e | pn
      · rw [hcons] at h; cases h
      · rw [hcons] at h
        obtain ⟨hok, hpn⟩ := (phone_construct_ok_iff newN pn).mp hcons
        have hph : r7e.phones = replaceFirst r7.phones oldN pn := by
          rw [← Except.ok.inj h]
        rw [hph]
        intro p hp
        rcases mem_replaceFirst oldN pn p r7.phones hp with h1 | h1
        · exact hv p h1
        · rw [h1, hpn]
          exact phoneOk_spec newN hok
  · intro p hp; cases hp
  · intro h hv
    unfold HW06.Record.add_phone HW06.Phone.construct at h
    by_cases hok : HW06.Phone.validate x = true
    · rw [if_pos hok] at h
      have hpair := Except.ok.inj h
      obtain ⟨hrec, hmsg⟩ := Prod.mk.inj hpair
      have hph : r6a.phones = r6.phones ++ [x] := by
        rw [← hrec]
      rw [hph]
      intro p hp
      rcases List.mem_append.mp hp with h1 | h1
      · exact hv p h1
      · rw [List.mem_singleton.mp h1]
        exact phoneOk_spec x (by rw [← phone_validate_eq]; exact hok)
    · rw [if_neg hok] at h; cases h
  · intro hv
    unfold HW06.Record.remove_phone
    rcases hf : HW06.Record.find_phone r6 x with _ | px
    · exact hv
    · intro p hp
      exact hv p (mem_removeFirst x p r6.phones hp)
  · intro hv
    unfold HW06.Record.edit_phone
    by_cases hok : HW06.Phone.validate newN = true
    · rw [if_pos hok]
      rcases hf : HW06.Record.find_phone r6 oldN with _ | px
      · exact hv
      · intro p hp
        rcases mem_replaceFirst oldN newN p r6.phones hp with h1 | h1
        · exact hv p h1
        · rw [h1]
          exact phoneOk_spec newN (by rw [← phone_validate_eq]; exact hok)
    · rw [if_neg hok]
      exact hv

/-- C10 witness: adding the valid phone 1234567890 to a fresh record
preserves the invariant: every stored phone is ten digit characters. -/
theorem phones_invariant_witness :
    PhonesValid (⟨"John", ["1234567890"], none⟩ : HW07.Record).phones :=
  (phones_invariant "John" "1234567890" "" "" "" (HW07.Record.init "John")
      ⟨"John", ["1234567890"], none⟩ (HW07.Record.init "John") (HW07.Record.init "John")
      (HW06.Record.init "John") (HW06.Record.init "John")).2.1
    (by decide) (by intro p hp; cases hp)

/-- A rendered decimal digit is an ASCII digit. -/
theorem isAsciiDigitChar_natDigitChar (n : Nat) :
    isAsciiDigitChar (natDigitChar n) = true := by
  unfold natDigitChar
  have hr : n % 10 < 10 := Nat.mod_lt n (by norm_num)
  revert hr
  generalize n % 10 = r
  intro hr
  interval_cases r <;> decide

/-- A rendered decimal digit reads back as its value. -/
theorem digitVal_natDigitChar (n : Nat) : digitVal (natDigitChar n) = n % 10 := by
  unfold natDigitChar
  have hr : n % 10 < 10 := Nat.mod_lt n (by norm_num)
  revert hr
  generalize n % 10 = r
  intro hr
  interval_cases r <;> decide

/-- The two-digit field parser reads a zero-padded two-digit rendering back
as its value. -/
theorem parseField2_two_digits (hi v : Nat) (rest : List Char) (h1 : 1 ≤ v) (hhi : v ≤ hi)
    (h99 : v ≤ 99) :
    parseField2 hi (natDigitChar (v / 10) :: natDigitChar v :: rest) = some (v, rest) := by
  simp only [parseField2]
  rw [isAsciiDigitChar_natDigitChar, isAsciiDigitChar_natDigitChar]
  rw [digitVal_natDigitChar, digitVal_natDigitChar]
  have hv : 10 * (v / 10 % 10) + v % 10 = v := by omega
  rw [hv]
  simp only [Bool.and_self, if_true]
  rw [if_pos ⟨h1, hhi⟩]

/-- The four-digit year parser reads a four-digit rendering back as its
value. -/
theorem parseYear4_digits (y : Nat) (rest : List Char) (hlo : 1000 ≤ y) (hhi : y ≤ 9999) :
    parseYear4 (natDigitChar (y / 1000) :: natDigitChar (y / 100) :: natDigitChar (y / 10) ::
      natDigitChar y :: rest) = some (y, rest) := by
  simp only [parseYear4]
  rw [isAsciiDigitChar_natDigitChar, isAsciiDigitChar_natDigitChar,
    isAsciiDigitChar_natDigitChar, isAsciiDigitChar_natDigitChar]
  rw [digitVal_natDigitChar, digitVal_natDigitChar, digitVal_natDigitChar, digitVal_natDigitChar]
  have hv : 1000 * (y / 1000 % 10) + 100 * (y / 100 % 10) + 10 * (y / 10 % 10) + y % 10 = y := by
    omega
  rw [hv]
  simp only [Bool.and_self, if_true]

/-- The literal-dot parser consumes a leading dot. -/
theorem expectDot_dot (l : List Char) : expectDot ('.' :: l) = some l := rfl

/-- Months have at most 31 days. -/
theorem daysInMonth_le_31 (y m : Nat) : daysInMonth y m ≤ 31 := by
  unfold daysInMonth
  split <;> split <;> omega

/-- C6 (corrected, amended): for every valid calendar date whose year is at
least 1000 — so that the `%Y` rendering has the full four digits — parsing
the canonical `DD.MM.YYYY` rendering back through `Birthday.construct`
returns exactly that date, and re-serialising with `toText` returns exactly
the original text; texts with a zero-padded year below 1000 are excluded,
as the counterexample shows they break the round trip. -/
theorem birthday_roundtrip (y m d : Nat) (hy1 : 1000 ≤ y) (hy2 : y ≤ 9999)
    (hm1 : 1 ≤ m) (hm2 : m ≤ 12) (hd1 : 1 ≤ d) (hd2 : d ≤ daysInMonth y m) :
    HW07.Birthday.construct (HW07.Birthday.toText ⟨y, m, d⟩) = Except.ok ⟨y, m, d⟩ ∧
    ∀ dt : PyDate, HW07.Birthday.construct (HW07.Birthday.toText ⟨y, m, d⟩) = Except.ok dt →
      HW07.Birthday.toText dt = HW07.Birthday.toText ⟨y, m, d⟩ := by
  have hd31 : d ≤ 31 := le_trans hd2 (daysInMonth_le_31 y m)
  have htext : (HW07.Birthday.toText ⟨y, m, d⟩).toList
      = natDigitChar (d / 10) :: natDigitChar d :: '.' :: natDigitChar (m / 10) ::
        natDigitChar m :: '.' :: natDigitChar (y / 1000) :: natDigitChar (y / 100) ::
        natDigitChar (y / 10) :: natDigitChar y :: [] := by
    show (strftimeDMY ⟨y, m, d⟩).data = _
    unfold strftimeDMY pad2 yearText
    rw [if_pos hy1]
    rw [String.data_append, String.data_append, String.data_append, String.data_append]
    rfl
  have hvd : validDate y m d = true := by
    unfold validDate
    exact decide_eq_true ⟨by omega, hy2, hm1, hm2, hd1, hd2⟩
  have hparse : strptimeDMY (HW07.Birthday.toText ⟨y, m, d⟩) = some ⟨y, m, d⟩ := by
    unfold strptimeDMY
    rw [htext]
    rw [parseField2_two_digits 31 d _ hd1 hd31 (by omega)]
    simp only [expectDot_dot]
    rw [parseField2_two_digits 12 m _ hm1 hm2 (by omega)]
    simp only [expectDot_dot]
    rw [parseYear4_digits y [] hy1 hy2]
    simp only [List.isEmpty_nil, hvd, Bool.and_self, if_true]
  constructor
  · unfold HW07.Birthday.construct
    rw [hparse]
  · intro dt hdt
    unfold HW07.Birthday.construct at hdt
    rw [hparse] at hdt
    rw [← Except.ok.inj hdt]

/-- C6 witness: the canonical text of 15.06.1990 parses back to that date. -/
theorem birthday_roundtrip_witness :
    HW07.Birthday.construct (HW07.Birthday.toText ⟨1990, 6, 15⟩) = Except.ok ⟨1990, 6, 15⟩ :=
  (birthday_roundtrip 1990 6 15 (by decide) (by decide) (by decide) (by decide) (by decide)
    (by decide)).1

/-- C6 counterexample: the text 01.01.0999 is a valid two-digit-day,
two-digit-month, four-digit-year rendering of a real calendar date, and it
parses successfully — but `%Y` renders year 999 without padding, so the
round trip returns 01.01.999, not the original text. -/
theorem birthday_roundtrip_fails_below_1000 :
    HW07.Birthday.construct "01.01.0999" = Except.ok ⟨999, 1, 1⟩ ∧
    HW07.Birthday.toText ⟨999, 1, 1⟩ = "01.01.999" ∧
    "01.01.999" ≠ "01.01.0999" := by
  decide
